import Mathlib

/-!
Verification of the agentic execution engine: the multi-agent orchestrator
(sequential / parallel / hierarchical collaboration over a registry of agents)
and the reasoning engine (chain-of-thought parsing, ReAct loop, confidence
and running statistics).

Modelling conventions:
* JS strings are modelled as lists of characters (`Str := List Char`) so that
  every operation is structurally recursive and computable; `str` converts a
  Lean string literal.  JS `toUpperCase`/`toLowerCase`/`trim` are modelled on
  ASCII, which covers every string the engine manipulates.
* The external text-generation service is an oracle `Nat → Except Str Str`
  giving the outcome of the n-th generator call; a state record tracks the
  next call index and the log of issued calls (system prompt, user prompt).
  Concurrent fan-out is modelled by consuming the oracle in branch-index
  order, which matches the engine's dispatch-order step numbering.
* Wall-clock fields (`timestamp`, `execution_time`, `processing_time`) and
  token counts are not modelled; no claim depends on them.  Numeric fields
  (`confidence`, statistics) are modelled over `ℚ` with exact arithmetic.
-/

namespace AgenticEngine

/-- Character strings of the embedded program. -/
abbrev Str := List Char

/-- Converts a Lean string literal into the model's character-list strings. -/
def str (s : String) : Str := s.toList

/-- ASCII whitespace, the subset of JS `\s` that the engine's strings use. -/
def isWs (c : Char) : Bool :=
  c = ' ' || c = '\t' || c = '\n' || c = '\r' || c = '\x0b' || c = '\x0c'

/-- JS `String.prototype.trim`: drop whitespace from both ends. -/
def trimL (cs : Str) : Str :=
  ((cs.dropWhile isWs).reverse.dropWhile isWs).reverse

/-- JS `String.prototype.toUpperCase` on ASCII. -/
def toUpperL (cs : Str) : Str := cs.map Char.toUpper

/-- JS `String.prototype.includes`: substring test. -/
def jsIncludesL (needle : Str) : Str → Bool
  | [] => needle.isEmpty
  | c :: rest => needle.isPrefixOf (c :: rest) || jsIncludesL needle rest

/-- Worker for `splitOnL`; the fuel is an upper bound on the input length and
never runs out when initialized with the input length. -/
def splitOnGo (sep : Str) : Nat → Str → Str → List Str
  | 0, cs, acc => [acc.reverse ++ cs]
  | fuel + 1, cs, acc =>
    match cs with
    | [] => [acc.reverse]
    | c :: rest =>
      if sep.isPrefixOf (c :: rest) then
        acc.reverse :: splitOnGo sep fuel (List.drop sep.length (c :: rest)) []
      else
        splitOnGo sep fuel rest (c :: acc)

/-- JS `String.prototype.split` with a non-empty string separator (the engine
never splits on the empty string). -/
def splitOnL (sep cs : Str) : List Str :=
  if sep.isEmpty then [cs] else splitOnGo sep cs.length cs []

/-- JS `x || d` for an optional string `x`: both `undefined` and the empty
string are falsy. -/
def jsOrStr (x : Option Str) (d : Str) : Str :=
  match x with
  | some s => if s = [] then d else s
  | none => d

/-! ## Data model (memory-system.ts, reasoning-engine.ts interfaces) -/

/-- `Agent` (memory-system.ts): a registered agent specification. -/
structure Agent where
  id : Str
  name : Str
  role : Str
  capabilities : List Str
  model : Str
  temperature : ℚ
  max_tokens : Nat
  system_prompt : Str
  tools : Option (List Str)
deriving Repr, DecidableEq

/-- `CollaborationStep` (memory-system.ts); `timestamp` and `execution_time`
are wall-clock and not modelled. -/
structure CollaborationStep where
  step_number : Nat
  agent : Agent
  input : Str
  output : Str
  success : Bool
deriving Repr, DecidableEq

/-- `CollaborationResult` (memory-system.ts); `execution_time` is wall-clock
and not modelled. -/
structure CollaborationResult where
  task : Str
  type : Str
  agents_used : List Agent
  steps : List CollaborationStep
  final_result : Str
  success : Bool
deriving Repr, DecidableEq

/-- `CollaborationRequest` (memory-system.ts); the collaboration type is kept
as a string to mirror the orchestrator's string-tagged dispatch. -/
structure CollaborationRequest where
  task : Str
  agents : List Str
  type : Str
deriving Repr, DecidableEq

/-- The orchestrator's running statistics record. -/
structure OrchestratorStats where
  total_collaborations : Nat
  avg_agents_per_task : ℚ
  success_rate : ℚ
  avg_execution_time : ℚ
deriving Repr, DecidableEq

/-- One generator invocation as issued through the OpenAI client: the system
message and the user message. -/
structure GenCall where
  system : Str
  user : Str
deriving Repr, DecidableEq

/-- The external generation service: outcome of the n-th call. -/
structure GenEnv where
  oracle : Nat → Except Str Str

/-- Mutable call-tracking state: index of the next call and log of calls. -/
structure GenSt where
  k : Nat
  log : List GenCall
deriving Repr, DecidableEq

/-- Initial call-tracking state. -/
def st0 : GenSt := ⟨0, []⟩

/-- Appends one issued call to the tracking state. -/
def pushCall (st : GenSt) (c : GenCall) : GenSt :=
  ⟨st.k + 1, st.log ++ [c]⟩

/-- Issues one generator call and returns its outcome. -/
def issueCall (env : GenEnv) (st : GenSt) (c : GenCall) :
    Except Str Str × GenSt :=
  (env.oracle st.k, pushCall st c)

/-- `executeAgentTask`: one chat completion with the agent's system prompt. -/
def executeAgentTask (env : GenEnv) (st : GenSt) (agent : Agent)
    (prompt : Str) : Except Str Str × GenSt :=
  issueCall env st ⟨agent.system_prompt, prompt⟩

/-! ## Prompt construction (memory-system.ts) -/

/-- `buildAgentPrompt`: role framing for sequential and parallel steps. -/
def buildAgentPrompt (agent : Agent) (input : Str) (stepIndex totalSteps : Nat)
    (type : Str) : Str :=
  let base := str "Task: " ++ input ++ str "\n\n"
  if type = str "sequential" then
    base
    ++ str "You are agent " ++ str (toString (stepIndex + 1)) ++ str " of "
    ++ str (toString totalSteps) ++ str " in a sequential workflow.\n"
    ++ str "Your role: " ++ agent.role ++ str "\n"
    ++ str "Your capabilities: "
    ++ List.intercalate (str ", ") agent.capabilities ++ str "\n\n"
    ++ (if 0 < stepIndex then
          str "This input is the output from the previous agent. Build upon their work.\n"
        else [])
    ++ (if stepIndex < totalSteps - 1 then
          str "Your output will be passed to the next agent, so be clear and comprehensive.\n"
        else
          str "You are the final agent. Provide a complete, polished result.\n")
  else if type = str "parallel" then
    base
    ++ str "You are working in parallel with " ++ str (toString (totalSteps - 1))
    ++ str " other agents on this task.\n"
    ++ str "Focus on your expertise area: " ++ agent.role ++ str "\n"
    ++ str "Your unique capabilities: "
    ++ List.intercalate (str ", ") agent.capabilities ++ str "\n"
    ++ str "Provide your perspective and recommendations based on your specialization.\n"
  else base

/-- `buildLeaderPrompt`: decomposition request for the hierarchical leader. -/
def buildLeaderPrompt (task : Str) (workers : List Agent) : Str :=
  str "As the lead coordinator, break down this complex task into smaller, manageable subtasks.\n\nMain Task: "
  ++ task
  ++ str "\n\nAvailable team members and their capabilities:\n"
  ++ List.intercalate (str "\n")
      (workers.map (fun agent =>
        str "- " ++ agent.name ++ str " (" ++ agent.role ++ str "): "
        ++ List.intercalate (str ", ") agent.capabilities))
  ++ str "\n\nPlease:\n1. Analyze the main task\n2. Break it into 2-"
  ++ str (toString workers.length)
  ++ str " specific subtasks\n3. Suggest which team member should handle each subtask\n4. Provide clear, actionable instructions for each subtask\n\nFormat your response as:\nSUBTASK 1: [Description]\nASSIGNED TO: [Agent name]\nINSTRUCTIONS: [Specific instructions]\n\nSUBTASK 2: [Description]\n..."

/-- `buildWorkerPrompt`: subtask assignment for a hierarchical worker. -/
def buildWorkerPrompt (worker : Agent) (subtask originalTask : Str) : Str :=
  str "You have been assigned a specific subtask as part of a larger project.\n\nOriginal Task: "
  ++ originalTask
  ++ str "\n\nYour Subtask: " ++ subtask
  ++ str "\n\nYour Role: " ++ worker.role
  ++ str "\n\nYour Capabilities: "
  ++ List.intercalate (str ", ") worker.capabilities
  ++ str "\n\nPlease complete this subtask thoroughly, keeping in mind how it contributes to the overall project goal. Provide detailed results that can be integrated with other team members\x27 work."

/-! ## Sequential collaboration -/

/-- The loop body of `sequentialCollaboration`: runs agents in order, feeding
each output into the next prompt; stops at the first failed call, recording
the failure as a step whose output is the error text. -/
def seqLoop (env : GenEnv) (total : Nat) :
    List Agent → Nat → Str → GenSt → List CollaborationStep × Bool × GenSt
  | [], _, _, st => ([], true, st)
  | agent :: rest, i, currentInput, st =>
    let prompt := buildAgentPrompt agent currentInput i total (str "sequential")
    match executeAgentTask env st agent prompt with
    | (.ok response, st1) =>
      let next := seqLoop env total rest (i + 1) response st1
      (⟨i + 1, agent, currentInput, response, true⟩ :: next.1, next.2.1, next.2.2)
    | (.error e, st1) =>
      ([⟨i + 1, agent, currentInput, str "Error: " ++ e, false⟩], false, st1)

/-- `sequentialCollaboration` (memory-system.ts). -/
def sequentialCollaboration (env : GenEnv) (st : GenSt) (task : Str)
    (agents : List Agent) : CollaborationResult × GenSt :=
  let run := seqLoop env agents.length agents 0 task st
  ({ task := task
     type := str "sequential"
     agents_used := agents
     steps := run.1
     final_result := jsOrStr ((run.1.getLast?).map (fun s => s.output)) (str "No result")
     success := run.2.1 }, run.2.2)

/-! ## Parallel collaboration -/

/-- The branch of `parallelCollaboration` for one agent at a given branch
index: the step number is fixed by the index at dispatch. -/
def parLoop (env : GenEnv) (task : Str) (total : Nat) :
    List Agent → Nat → GenSt → List CollaborationStep × GenSt
  | [], _, st => ([], st)
  | agent :: rest, index, st =>
    let prompt := buildAgentPrompt agent task index total (str "parallel")
    match executeAgentTask env st agent prompt with
    | (.ok response, st1) =>
      let next := parLoop env task total rest (index + 1) st1
      (⟨index + 1, agent, task, response, true⟩ :: next.1, next.2)
    | (.error e, st1) =>
      let next := parLoop env task total rest (index + 1) st1
      (⟨index + 1, agent, task, str "Error: " ++ e, false⟩ :: next.1, next.2)

/-- System message of the parallel synthesis call. -/
def parallelSynthSystem : Str :=
  str "You are an expert at synthesizing multiple perspectives into coherent, comprehensive responses."

/-- User prompt of the parallel synthesis call: built from the successful
branch results only. -/
def synthesisUserPrompt (task : Str) (successfulResults : List CollaborationStep) : Str :=
  str "Synthesize the following parallel agent results into a comprehensive response.\n\nOriginal Task: "
  ++ task
  ++ str "\n\nAgent Results:\n"
  ++ List.intercalate (str "\n\n---\n\n")
      (successfulResults.map (fun r =>
        r.agent.name ++ str " (" ++ r.agent.role ++ str "):\n" ++ r.output))
  ++ str "\n\nPlease create a unified, coherent response that incorporates insights from all agents while avoiding redundancy."

/-- `synthesizeParallelResults` (memory-system.ts): skips the generator when
no branch succeeded, otherwise issues exactly one synthesis call over the
successful results. -/
def synthesizeParallelResults (env : GenEnv) (st : GenSt) (task : Str)
    (results : List CollaborationStep) : Except Str Str × GenSt :=
  let successfulResults := results.filter (fun r => r.success)
  if successfulResults.length = 0 then
    (.ok (str "All parallel tasks failed. Unable to synthesize results."), st)
  else
    match issueCall env st ⟨parallelSynthSystem, synthesisUserPrompt task successfulResults⟩ with
    | (.ok content, st1) =>
      (.ok (if content = [] then str "Failed to synthesize results" else content), st1)
    | (.error e, st1) => (.error e, st1)

/-- `parallelCollaboration` (memory-system.ts). -/
def parallelCollaboration (env : GenEnv) (st : GenSt) (task : Str)
    (agents : List Agent) : Except Str CollaborationResult × GenSt :=
  let run := parLoop env task agents.length agents 0 st
  match synthesizeParallelResults env run.2 task run.1 with
  | (.ok synthesizedResult, st1) =>
    (.ok { task := task
           type := str "parallel"
           agents_used := agents
           steps := run.1
           final_result := synthesizedResult
           success := run.1.all (fun r => r.success) }, st1)
  | (.error e, st1) => (.error e, st1)

/-! ## Hierarchical collaboration -/

/-- `parseSubtasks` (memory-system.ts): scan lines for a case-insensitive
"SUBTASK" marker and take the trimmed text after the first colon; if none are
found, fall back to paragraphs whose trimmed length exceeds 50, capped at 3. -/
def parseSubtasks (breakdown : Str) : List Str :=
  let lines := splitOnL (str "\n") breakdown
  let subtasks := lines.filterMap (fun line =>
    if jsIncludesL (str "SUBTASK") (toUpperL line) then
      if line.contains ':' then
        some (trimL ((line.dropWhile (fun c => c ≠ ':')).drop 1))
      else none
    else none)
  if subtasks.isEmpty then
    ((splitOnL (str "\n\n") breakdown).filter (fun p => 50 < (trimL p).length)).take 3
  else subtasks

/-- The concurrent worker dispatch of `hierarchicalCollaboration`: one step
per (subtask, worker) pair, numbered from 2 by dispatch index; a failed call
is recorded as an unsuccessful step, not a thrown error. -/
def workerLoop (env : GenEnv) (task : Str) :
    List (Str × Agent) → Nat → GenSt → List CollaborationStep × GenSt
  | [], _, st => ([], st)
  | (subtask, worker) :: rest, index, st =>
    let prompt := buildWorkerPrompt worker subtask task
    match executeAgentTask env st worker prompt with
    | (.ok result, st1) =>
      let next := workerLoop env task rest (index + 1) st1
      (⟨index + 2, worker, subtask, result, true⟩ :: next.1, next.2)
    | (.error e, st1) =>
      let next := workerLoop env task rest (index + 1) st1
      (⟨index + 2, worker, subtask, str "Error: " ++ e, false⟩ :: next.1, next.2)

/-- System message of the hierarchical synthesis call. -/
def hierSynthSystem : Str :=
  str "You are a project leader synthesizing team results into a final deliverable."

/-- User prompt of `synthesizeHierarchicalResults`. -/
def hierSynthPrompt (originalTask breakdown : Str)
    (workerResults : List CollaborationStep) : Str :=
  str "As the project leader, provide a final comprehensive result.\n\nOriginal Task: "
  ++ originalTask
  ++ str "\n\nTask Breakdown: " ++ breakdown
  ++ str "\n\nTeam Results:\n"
  ++ List.intercalate (str "\n\n")
      (workerResults.map (fun r => r.agent.name ++ str ": " ++ r.output))
  ++ str "\n\nPlease provide a final, integrated solution that addresses the original task completely."

/-- `synthesizeHierarchicalResults` (memory-system.ts): always issues exactly
one leader synthesis call. -/
def synthesizeHierarchicalResults (env : GenEnv) (st : GenSt)
    (originalTask breakdown : Str) (workerResults : List CollaborationStep) :
    Except Str Str × GenSt :=
  match issueCall env st ⟨hierSynthSystem, hierSynthPrompt originalTask breakdown workerResults⟩ with
  | (.ok content, st1) =>
    (.ok (if content = [] then str "Failed to synthesize final result" else content), st1)
  | (.error e, st1) => (.error e, st1)

/-- `hierarchicalCollaboration` (memory-system.ts).  The source indexes
`agents[0]` unconditionally; the orchestrator only calls this after
validating a non-empty agent list, so the empty case (a runtime type error in
the source) is modelled as a thrown error. -/
def hierarchicalCollaboration (env : GenEnv) (st : GenSt) (task : Str)
    (agents : List Agent) : Except Str CollaborationResult × GenSt :=
  match agents with
  | [] => (.error (str "hierarchical collaboration requires a leader"), st)
  | leader :: workers =>
    let leaderPrompt := buildLeaderPrompt task workers
    match executeAgentTask env st leader leaderPrompt with
    | (.error e, st1) => (.error e, st1)
    | (.ok taskBreakdown, st1) =>
      let step1 : CollaborationStep := ⟨1, leader, task, taskBreakdown, true⟩
      let subtasks := parseSubtasks taskBreakdown
      let wrun := workerLoop env task ((subtasks.take workers.length).zip workers) 0 st1
      match synthesizeHierarchicalResults env wrun.2 task taskBreakdown wrun.1 with
      | (.error e, st2) => (.error e, st2)
      | (.ok finalSynthesis, st2) =>
        let beforeSynth := step1 :: wrun.1
        (.ok { task := task
               type := str "hierarchical"
               agents_used := leader :: workers
               steps := beforeSynth
                 ++ [⟨beforeSynth.length + 1, leader, str "Synthesis of worker results",
                      finalSynthesis, true⟩]
               final_result := finalSynthesis
               success := wrun.1.all (fun r => r.success) }, st2)

/-! ## Validation, dispatch and statistics -/

/-- The agent-resolution loop of `validateAndGetAgents`: stops with an error
at the first id absent from the registry. -/
def resolveAgents (registry : List Agent) : List Str → Except Str (List Agent)
  | [] => .ok []
  | id :: rest =>
    match registry.find? (fun a => a.id == id) with
    | none => .error (str "Agent not found: " ++ id)
    | some agent =>
      match resolveAgents registry rest with
      | .error e => .error e
      | .ok agents => .ok (agent :: agents)

/-- `validateAndGetAgents` (memory-system.ts): unknown ids fail first; an
empty resolved list fails afterwards. -/
def validateAndGetAgents (registry : List Agent) (agentIds : List Str) :
    Except Str (List Agent) :=
  match resolveAgents registry agentIds with
  | .error e => .error e
  | .ok agents =>
    if agents.length = 0 then .error (str "No valid agents provided") else .ok agents

/-- `updateStats` (memory-system.ts): incremental means over the already
incremented collaboration counter.  The caller increments the counter before
calling, so the divisor is at least 1 in every reachable call. -/
def updateStats (stats : OrchestratorStats) (executionTime agentCount : ℚ)
    (success : Bool) : OrchestratorStats :=
  let total : ℚ := stats.total_collaborations
  { stats with
    success_rate := (stats.success_rate * (total - 1) + (if success then 1 else 0)) / total
    avg_execution_time := (stats.avg_execution_time * (total - 1) + executionTime) / total
    avg_agents_per_task := (stats.avg_agents_per_task * (total - 1) + agentCount) / total }

/-- One completed request as fed to the statistics (execution time, agent
count, success flag). -/
structure StatsSample where
  executionTime : ℚ
  agentCount : ℚ
  success : Bool
deriving Repr, DecidableEq

/-- One stats update as performed for every completed request: `collaborate`
increments `total_collaborations` on entry and calls `updateStats` once on
exit (success or failure). -/
def recordOutcome (stats : OrchestratorStats) (s : StatsSample) : OrchestratorStats :=
  updateStats
    { stats with total_collaborations := stats.total_collaborations + 1 }
    s.executionTime s.agentCount s.success

/-- `collaborate` (memory-system.ts): validates the requested agents, then
dispatches on the collaboration type; every thrown error surfaces as
`Except.error`.  Execution time is wall-clock and modelled as 0. -/
def collaborate (env : GenEnv) (st : GenSt) (registry : List Agent)
    (stats : OrchestratorStats) (request : CollaborationRequest) :
    Except Str CollaborationResult × GenSt × OrchestratorStats :=
  let stats1 :=
    { stats with total_collaborations := stats.total_collaborations + 1 }
  match validateAndGetAgents registry request.agents with
  | .error e =>
    (.error e, st, updateStats stats1 0 request.agents.length false)
  | .ok selectedAgents =>
    let dispatch : Except Str CollaborationResult × GenSt :=
      if request.type = str "sequential" then
        let run := sequentialCollaboration env st request.task selectedAgents
        (.ok run.1, run.2)
      else if request.type = str "parallel" then
        parallelCollaboration env st request.task selectedAgents
      else if request.type = str "hierarchical" then
        hierarchicalCollaboration env st request.task selectedAgents
      else
        (.error (str "Unknown collaboration type: " ++ request.type), st)
    match dispatch with
    | (.ok result, st1) =>
      (.ok result, st1, updateStats stats1 0 selectedAgents.length result.success)
    | (.error e, st1) =>
      (.error e, st1, updateStats stats1 0 request.agents.length false)

/-! ## Reasoning engine (reasoning-engine.ts) -/

/-- `ReasoningStep` (reasoning-engine.ts); `timestamp` is wall-clock and not
modelled.  `action` and `observation` are optional as in the source. -/
structure ReasoningStep where
  step_number : Nat
  type : Str
  thought : Str
  action : Option Str
  observation : Option Str
  confidence : ℚ
deriving Repr, DecidableEq

/-- `ReasoningResult` (reasoning-engine.ts); `processing_time` and
`tokens_used` are not modelled. -/
structure ReasoningResult where
  response : Str
  reasoning : List ReasoningStep
  confidence : ℚ
deriving Repr, DecidableEq

/-- One line of the regex `/^\d+\.|step \d+/i`: either the line starts with
digits followed by a dot, or it contains "step " (case-insensitive) followed
by a digit anywhere (the second alternative is unanchored). -/
def startsNumDot (cs : Str) : Bool :=
  match cs with
  | [] => false
  | c :: _ =>
    c.isDigit && (match cs.dropWhile Char.isDigit with
                  | '.' :: _ => true
                  | _ => false)

/-- Case-insensitive match of "step " followed by a digit at the head. -/
def stepNumHere (cs : Str) : Bool :=
  ((str "step ").isPrefixOf (cs.map Char.toLower)) &&
    (match cs.drop 5 with
     | d :: _ => d.isDigit
     | [] => false)

/-- Scan for an unanchored occurrence of "step \d" (case-insensitive). -/
def containsStepNum : Str → Bool
  | [] => false
  | c :: rest => stepNumHere (c :: rest) || containsStepNum rest

/-- Whether a line matches `/^\d+\.|step \d+/i`. -/
def lineIsStep (line : Str) : Bool :=
  startsNumDot line || containsStepNum line

/-- `parseChainOfThoughtReasoning` (reasoning-engine.ts): one step per
matching line with confidence 0.8; if no line matches, a single fallback step
holding the whole response with confidence 0.7. -/
def parseChainOfThoughtReasoning (response : Str) : List ReasoningStep :=
  let matched := (splitOnL (str "\n") response).filter lineIsStep
  let steps := matched.enum.map (fun p =>
    { step_number := p.1 + 1
      type := str "chain-of-thought"
      thought := p.2
      action := none
      observation := none
      confidence := 4/5 : ReasoningStep })
  if 0 < steps.length then steps
  else
    [{ step_number := 1
       type := str "chain-of-thought"
       thought := response
       action := none
       observation := none
       confidence := 7/10 }]

/-- Case-insensitive literal prefix test: the keyword is given lowercase. -/
def ciStartsWith : Str → Str → Bool
  | [], _ => true
  | _ :: _, [] => false
  | k :: ks, c :: cs => (k == Char.toLower c) && ciStartsWith ks cs

/-- The capture of `\s*(.+?)(?:\n|$)` against a suffix, `none` when the regex
tail cannot match there.  The greedy `\s*` first consumes the whole leading
whitespace run; if nothing follows, it backtracks to the last character of
the run that is not a newline (`.` cannot match a newline); the lazy capture
then extends to the next newline or the end of the string. -/
def captureAfter (cs : Str) : Option Str :=
  let run := (cs.takeWhile isWs).length
  if run < cs.length then
    some ((cs.drop run).takeWhile (fun c => c ≠ '\n'))
  else
    let trailingNl := (cs.reverse.takeWhile (fun c => c = '\n')).length
    if trailingNl = cs.length then none
    else some ((cs.drop (cs.length - trailingNl - 1)).takeWhile (fun c => c ≠ '\n'))

/-- Try each alternation keyword at the current position, in pattern order. -/
def tryKeywords (kws : List Str) (cs : Str) : Option Str :=
  match kws with
  | [] => none
  | kw :: more =>
    if ciStartsWith kw cs then
      match captureAfter (cs.drop kw.length) with
      | some cap => some cap
      | none => tryKeywords more cs
    else tryKeywords more cs

/-- Leftmost regex search for `(?:kw1|...|kwn)\s*(.+?)(?:\n|$)` with
case-insensitive keywords, returning the first capture group. -/
def scanPattern (kws : List Str) : Str → Option Str
  | [] => none
  | c :: rest =>
    match tryKeywords kws (c :: rest) with
    | some cap => some cap
    | none => scanPattern kws rest

/-- Keywords of the first lead-in pattern of `extractFinalAnswer` (each ends
with the literal colon of the regex). -/
def answerKws1 : List Str :=
  [str "answer:", str "conclusion:", str "therefore:", str "finally:", str "result:"]

/-- Keywords of the second lead-in pattern of `extractFinalAnswer`. -/
def answerKws2 : List Str :=
  [str "the answer is", str "the result is", str "we conclude that"]

/-- `extractFinalAnswer` (reasoning-engine.ts).  When no lead-in pattern
matches, the source computes `sentences[sentences.length - 1]?.trim() + '.'`;
with no sentence fragment longer than 10 trimmed characters this is the JS
string "undefined." (concatenation coerces `undefined`), which is truthy, so
the `|| response` fallback is never taken. -/
def extractFinalAnswer (response : Str) : Str :=
  match scanPattern answerKws1 response with
  | some m => trimL m
  | none =>
    match scanPattern answerKws2 response with
    | some m => trimL m
    | none =>
      let sentences := (splitOnL (str ".") response).filter
        (fun s => 10 < (trimL s).length)
      match sentences.getLast? with
      | some s => trimL s ++ str "."
      | none => str "undefined."

/-- `calculateConfidence` (reasoning-engine.ts): mean step confidence plus a
complexity bonus of `min(0.05 * steps, 0.2)`, capped at 1. -/
def calculateConfidence (reasoning : List ReasoningStep) : ℚ :=
  if reasoning.length = 0 then 1/2
  else
    let avgConfidence :=
      (reasoning.foldl (fun sum step => sum + step.confidence) (0 : ℚ)) / reasoning.length
    let complexityBonus := min ((reasoning.length : ℚ) * (1/20)) (1/5)
    min (avgConfidence + complexityBonus) 1

/-- `executeAction` (reasoning-engine.ts): the fixed internal simulation of
SEARCH / CALCULATE / ANALYZE / ANSWER, matched case-insensitively. -/
def executeAction (action input : Str) : Str :=
  if jsIncludesL (str "SEARCH") (toUpperL action) then
    str "Search results: [Simulated search results related to the query]"
  else if jsIncludesL (str "CALCULATE") (toUpperL action) then
    str "Calculation complete: [Simulated calculation result]"
  else if jsIncludesL (str "ANALYZE") (toUpperL action) then
    str "Analysis: [Simulated analysis results]"
  else if jsIncludesL (str "ANSWER") (toUpperL action) then
    str "Final answer based on previous reasoning steps."
  else
    let _ := input
    str "Action executed successfully."

/-- System message of the ReAct thought call. -/
def reactThoughtSystem : Str :=
  str "You are using the ReAct methodology. Generate a THOUGHT about what you should do next to solve this problem."

/-- System message of the ReAct action call. -/
def reactActionSystem : Str :=
  str "Based on your thought, decide what ACTION to take. Actions can be: SEARCH, CALCULATE, ANALYZE, or ANSWER."

/-- History line for one optional field in the ReAct thought prompt; skipped
for a missing or empty value, as JS `if (step.action)` is. -/
def optLine (label : Str) (v : Option Str) : Str :=
  match v with
  | some s => if s = [] then [] else label ++ s ++ str "\n"
  | none => []

/-- `buildReactThoughtPrompt` (reasoning-engine.ts); the unused `context`
parameter of the source is omitted. -/
def buildReactThoughtPrompt (input : Str) (previousReasoning : List ReasoningStep) : Str :=
  str "Question: " ++ input ++ str "\n\n"
  ++ (if 0 < previousReasoning.length then
        str "Previous reasoning steps:\n"
        ++ (previousReasoning.map (fun step =>
              str "Step " ++ str (toString step.step_number) ++ str ": "
              ++ step.thought ++ str "\n"
              ++ optLine (str "Action: ") step.action
              ++ optLine (str "Observation: ") step.observation)).foldl (· ++ ·) []
        ++ str "\n"
      else [])
  ++ str "THOUGHT: What should I think about next to solve this problem?"

/-- `buildReactActionPrompt` (reasoning-engine.ts). -/
def buildReactActionPrompt (thought input : Str) : Str :=
  str "Given this thought: \"" ++ thought ++ str "\"\n\nFor the question: \""
  ++ input ++ str "\"\n\nWhat ACTION should I take? (SEARCH, CALCULATE, ANALYZE, or ANSWER)"

/-- The ReAct while-loop (reasoning-engine.ts, `maxIterations = 5`): each
iteration issues a thought call and an action call, simulates the action, and
records one step; it exits early when the action text contains "ANSWER".  A
failed generator call propagates as an error. -/
def reactLoop (env : GenEnv) :
    Nat → Nat → Str → List ReasoningStep → GenSt →
    Except Str (List ReasoningStep) × GenSt
  | 0, _, _, acc, st => (.ok acc, st)
  | fuel + 1, iteration, currentInput, acc, st =>
    let thoughtPrompt := buildReactThoughtPrompt currentInput acc
    match issueCall env st ⟨reactThoughtSystem, thoughtPrompt⟩ with
    | (.error e, st1) => (.error e, st1)
    | (.ok thought, st1) =>
      let actionPrompt := buildReactActionPrompt thought currentInput
      match issueCall env st1 ⟨reactActionSystem, actionPrompt⟩ with
      | (.error e, st2) => (.error e, st2)
      | (.ok action, st2) =>
        let observation := executeAction action currentInput
        let step : ReasoningStep :=
          { step_number := iteration + 1
            type := str "react"
            thought := thought
            action := some action
            observation := some observation
            confidence := 4/5 }
        let acc1 := acc ++ [step]
        if jsIncludesL (str "ANSWER") (toUpperL action) then (.ok acc1, st2)
        else
          reactLoop env fuel (iteration + 1)
            (currentInput ++ str "\n\nPrevious reasoning: " ++ thought
              ++ str "\nAction taken: " ++ action ++ str "\nResult: " ++ observation)
            acc1 st2

/-- `reactMethodology` (reasoning-engine.ts). -/
def reactMethodology (env : GenEnv) (st : GenSt) (input : Str) :
    Except Str ReasoningResult × GenSt :=
  match reactLoop env 5 0 input [] st with
  | (.error e, st1) => (.error e, st1)
  | (.ok reasoning, st1) =>
    (.ok { response :=
             jsOrStr ((reasoning.getLast?).bind (fun s => s.observation))
               (str "Could not determine answer")
           reasoning := reasoning
           confidence := calculateConfidence reasoning }, st1)

/-- System message of the chain-of-thought call. -/
def cotSystem : Str :=
  str "You are an advanced reasoning system. Think step by step, showing your reasoning process clearly. Each step should be numbered and explain your thought process."

/-- `buildChainOfThoughtPrompt` (reasoning-engine.ts); the optional `context`
branch (a JSON dump) is omitted, as every claim concerns context-free calls. -/
def buildChainOfThoughtPrompt (input : Str) : Str :=
  str "Please solve this step by step, showing your reasoning:\n\n" ++ input
  ++ str "\n\nThink through this systematically, numbering each step of your reasoning."

/-- `chainOfThought` (reasoning-engine.ts): one generator call, parsed into
steps, with the final answer extracted and the confidence computed. -/
def chainOfThought (env : GenEnv) (st : GenSt) (input : Str) :
    Except Str ReasoningResult × GenSt :=
  match issueCall env st ⟨cotSystem, buildChainOfThoughtPrompt input⟩ with
  | (.error e, st1) => (.error e, st1)
  | (.ok response, st1) =>
    let reasoning := parseChainOfThoughtReasoning response
    (.ok { response := extractFinalAnswer response
           reasoning := reasoning
           confidence := calculateConfidence reasoning }, st1)

/-! ## Concrete fixtures for witnesses and counterexamples -/

/-- A minimal registered agent used by the concrete scenarios. -/
def mkAgent (id name : String) : Agent :=
  { id := str id
    name := str name
    role := str "Generalist"
    capabilities := [str "analysis", str "writing"]
    model := str "gpt-4"
    temperature := 1/2
    max_tokens := 1000
    system_prompt := str "You are a helpful specialist."
    tools := none }

/-- Placeholder agent for positional lookups with `List.getD`. -/
def dummyAgent : Agent := mkAgent "none" "None"

/-- First concrete agent. -/
def agA : Agent := mkAgent "a" "Agent A"

/-- Second concrete agent. -/
def agB : Agent := mkAgent "b" "Agent B"

/-- Third concrete agent. -/
def agC : Agent := mkAgent "c" "Agent C"

/-- Placeholder step for positional lookups with `List.getD`. -/
def dummyStep : CollaborationStep :=
  ⟨0, mkAgent "none" "None", [], [], false⟩

/-- Oracle where the first call succeeds and every later call fails. -/
def envSeqFail : GenEnv :=
  ⟨fun k => if k = 0 then .ok (str "out0") else .error (str "boom")⟩

/-- Oracle where every call succeeds with a fixed text. -/
def envOk : GenEnv := ⟨fun _ => .ok (str "fine")⟩

/-- Oracle where every call fails. -/
def envAllFail : GenEnv := ⟨fun _ => .error (str "down")⟩

/-- Oracle where every call returns "ANSWER" (stops the ReAct loop at once). -/
def envAnswer : GenEnv := ⟨fun _ => .ok (str "ANSWER")⟩

/-- A 50-character paragraph (trimmed length exactly 50, hence dropped by the
fallback filter `p.trim().length > 50`). -/
def cexPara1 : Str := str "aaaaaaaaaaaaaaaaaaaaaaaaaaaaaaaaaaaaaaaaaaaaaaaaaa"

/-- A second 50-character paragraph. -/
def cexPara2 : Str := str "bbbbbbbbbbbbbbbbbbbbbbbbbbbbbbbbbbbbbbbbbbbbbbbbbb"

/-- Leader output with no SUBTASK marker and two 50-character paragraphs. -/
def cexBreakdown : Str := cexPara1 ++ str "\n\n" ++ cexPara2

/-- Oracle for the hierarchical counterexample run: the leader returns the
two-paragraph breakdown, every other call succeeds. -/
def envHierCex : GenEnv :=
  ⟨fun k => if k = 0 then .ok cexBreakdown else .ok (str "synth")⟩

/-- A 51-character paragraph (trimmed length 51, kept by the fallback). -/
def witPara1 : Str := str "ccccccccccccccccccccccccccccccccccccccccccccccccccc"

/-- A second 51-character paragraph. -/
def witPara2 : Str := str "ddddddddddddddddddddddddddddddddddddddddddddddddddd"

/-- Leader output with no SUBTASK marker and two 51-character paragraphs. -/
def witBreakdown : Str := witPara1 ++ str "\n\n" ++ witPara2

/-- Oracle for the hierarchical witness run. -/
def envHierWit : GenEnv :=
  ⟨fun k => if k = 0 then .ok witBreakdown else .ok (str "synth")⟩

/-- Initial statistics of the orchestrator before any collaboration. -/
def initialStats : OrchestratorStats :=
  { total_collaborations := 0
    avg_agents_per_task := 5/2
    success_rate := 19/20
    avg_execution_time := 5000 }

/-- Oracle where the first branch fails and every later call succeeds. -/
def envMixed : GenEnv :=
  ⟨fun k => if k = 0 then .error (str "down") else .ok (str "merged")⟩

/-- Whether a generator outcome is a success. -/
def genOk : Except Str Str → Bool
  | .ok _ => true
  | .error _ => false

/-- The step a parallel branch at the given branch index records when its
generator call is the oracle's `callIdx`-th outcome. -/
def parStepAt (env : GenEnv) (task : Str) (agent : Agent)
    (index callIdx : Nat) : CollaborationStep :=
  match env.oracle callIdx with
  | .ok response => ⟨index + 1, agent, task, response, true⟩
  | .error e => ⟨index + 1, agent, task, str "Error: " ++ e, false⟩

/-- The step a hierarchical worker at the given dispatch index records when
its generator call is the oracle's `callIdx`-th outcome. -/
def workerStepAt (env : GenEnv) (pair : Str × Agent) (index callIdx : Nat) :
    CollaborationStep :=
  match env.oracle callIdx with
  | .ok result => ⟨index + 2, pair.2, pair.1, result, true⟩
  | .error e => ⟨index + 2, pair.2, pair.1, str "Error: " ++ e, false⟩

/-- The trace of a step list is chained from a given seed: each step consumes
the previous step's output (the seed for the first step). -/
def chainedFrom : Str → List CollaborationStep → Prop
  | _, [] => True
  | cur, s :: rest => s.input = cur ∧ chainedFrom s.output rest

/-- A parsed chain-of-thought step with the fixed per-step confidence 0.8. -/
def cotStep08 : ReasoningStep :=
  { step_number := 1
    type := str "chain-of-thought"
    thought := str "1. a parsed step"
    action := none
    observation := none
    confidence := 4/5 }

/-- Placeholder reasoning step for positional lookups with `List.getD`. -/
def dummyReasonStep : ReasoningStep :=
  { step_number := 0
    type := []
    thought := []
    action := none
    observation := none
    confidence := 0 }

/-- Whether a recorded ReAct step's action text contains "ANSWER"
(case-insensitive), the loop's early-exit condition. -/
def stepHasAnswer (s : ReasoningStep) : Bool :=
  match s.action with
  | some a => jsIncludesL (str "ANSWER") (toUpperL a)
  | none => false

/-- The result of the concrete failing sequential run (agent 2 of 3 fails). -/
def c1res : CollaborationResult :=
  (sequentialCollaboration envSeqFail st0 (str "task") [agA, agB, agC]).1

/-! ## Theorems -/

/-- C10: for every response in which neither lead-in answer pattern matches
and no '.'-separated fragment has trimmed length greater than 10, the direct
strategy's final-answer extraction returns the literal string "undefined."
rather than the original response text. -/
theorem extractFinalAnswer_undefined (response : Str)
    (h1 : scanPattern answerKws1 response = none)
    (h2 : scanPattern answerKws2 response = none)
    (h3 : (splitOnL (str ".") response).filter (fun s => 10 < (trimL s).length) = []) :
    extractFinalAnswer response = str "undefined." := by
  unfold extractFinalAnswer
  rw [h1, h2]
  simp only [h3, List.getLast?_nil]

/-- Witness for C10 at the empty response. -/
theorem extractFinalAnswer_undefined_witness :
    scanPattern answerKws1 [] = none ∧ scanPattern answerKws2 [] = none
    ∧ (splitOnL (str ".") []).filter (fun s => 10 < (trimL s).length) = []
    ∧ extractFinalAnswer [] = str "undefined." :=
  ⟨by decide, by decide, by decide,
    extractFinalAnswer_undefined [] (by decide) (by decide) (by decide)⟩

/-- C1 counterexample: in the concrete sequential run over 3 agents where
agent 2's call fails, the trace has 2 steps and overall success is false as
the claim states, but `final_result` is the failed step's error output, not
`steps[0].output`. -/
theorem seq_fail_final_cex :
    c1res.steps.length = 2
    ∧ (c1res.steps.getD 0 dummyStep).success = true
    ∧ (c1res.steps.getD 1 dummyStep).success = false
    ∧ c1res.success = false
    ∧ c1res.final_result ≠ (c1res.steps.getD 0 dummyStep).output
    ∧ c1res.final_result = (c1res.steps.getD 1 dummyStep).output := by
  decide

/-- C1 (amended): for sequential collaboration over 3 agents where the first
call succeeds and the second fails, `steps` has exactly 2 entries,
`steps[1].success = false`, overall success is false, and `final_result`
equals the failed step's output `"Error: " ++ message` (the last step pushed),
not the last successful output. -/
theorem seq_fail_final_result (env : GenEnv) (task y e : Str) (a b c : Agent)
    (h0 : env.oracle 0 = .ok y) (h1 : env.oracle 1 = .error e) :
    ((sequentialCollaboration env st0 task [a, b, c]).1).steps.length = 2
    ∧ (((sequentialCollaboration env st0 task [a, b, c]).1).steps.getD 1 dummyStep).success = false
    ∧ ((sequentialCollaboration env st0 task [a, b, c]).1).success = false
    ∧ (((sequentialCollaboration env st0 task [a, b, c]).1).steps.getD 0 dummyStep).output = y
    ∧ (((sequentialCollaboration env st0 task [a, b, c]).1).steps.getD 1 dummyStep).output
        = str "Error: " ++ e
    ∧ ((sequentialCollaboration env st0 task [a, b, c]).1).final_result
        = str "Error: " ++ e := by
  have hne : str "Error: " ++ e ≠ [] := by
    intro hcontra
    exact absurd (List.append_eq_nil.mp hcontra).1 (by decide)
  simp [sequentialCollaboration, seqLoop, executeAgentTask, issueCall, pushCall, st0,
    h0, h1, jsOrStr, hne]

/-- Witness for C1 at the concrete failing run. -/
theorem seq_fail_final_result_witness :
    ((sequentialCollaboration envSeqFail st0 (str "task") [agA, agB, agC]).1).steps.length = 2
    ∧ (((sequentialCollaboration envSeqFail st0 (str "task") [agA, agB, agC]).1).steps.getD 1 dummyStep).success = false
    ∧ ((sequentialCollaboration envSeqFail st0 (str "task") [agA, agB, agC]).1).success = false
    ∧ (((sequentialCollaboration envSeqFail st0 (str "task") [agA, agB, agC]).1).steps.getD 0 dummyStep).output = str "out0"
    ∧ (((sequentialCollaboration envSeqFail st0 (str "task") [agA, agB, agC]).1).steps.getD 1 dummyStep).output
        = str "Error: " ++ str "boom"
    ∧ ((sequentialCollaboration envSeqFail st0 (str "task") [agA, agB, agC]).1).final_result
        = str "Error: " ++ str "boom" :=
  seq_fail_final_result envSeqFail (str "task") (str "out0") (str "boom") agA agB agC rfl rfl

/-- The sequential loop's trace is chained from its running input. -/
theorem seqLoop_chainedFrom (env : GenEnv) (total : Nat) :
    ∀ (agents : List Agent) (i : Nat) (cur : Str) (st : GenSt),
      chainedFrom cur (seqLoop env total agents i cur st).1 := by
  intro agents
  induction agents with
  | nil => intro i cur st; simp [seqLoop, chainedFrom]
  | cons agent rest ih =>
    intro i cur st
    rcases h : env.oracle st.k with e | response
    · simp [seqLoop, executeAgentTask, issueCall, h, chainedFrom]
    · simpa [seqLoop, executeAgentTask, issueCall, h, chainedFrom] using
        ih (i + 1) response (pushCall st ⟨agent.system_prompt,
          buildAgentPrompt agent cur i total (str "sequential")⟩)

/-- In a chained trace, each step's input is the previous step's output. -/
theorem chainedFrom_get :
    ∀ (l : List CollaborationStep) (cur : Str), chainedFrom cur l →
      ∀ i (h : i + 1 < l.length),
        (l.get ⟨i + 1, h⟩).input = (l.get ⟨i, by omega⟩).output := by
  intro l
  induction l with
  | nil => intro cur _ i h; simp at h
  | cons s rest ih =>
    intro cur hc i h
    match i, rest, hc with
    | 0, r0 :: rest2, ⟨_, hr0, _⟩ => exact hr0
    | j + 1, r0 :: rest2, ⟨_, hrest⟩ =>
      exact ih s.output hrest j (by simpa using h)

/-- C5: in every sequential collaboration each recorded step's input equals
the previous step's output (`steps[i].input = steps[i-1].output` for `i > 0`),
including a failed final step. -/
theorem seq_dataflow (env : GenEnv) (st : GenSt) (task : Str) (agents : List Agent)
    (i : Nat) (h : i + 1 < ((sequentialCollaboration env st task agents).1).steps.length) :
    (((sequentialCollaboration env st task agents).1).steps.get ⟨i + 1, h⟩).input
      = (((sequentialCollaboration env st task agents).1).steps.get ⟨i, by omega⟩).output := by
  exact chainedFrom_get _ task (seqLoop_chainedFrom env agents.length agents 0 task st) i h

/-- Witness for C5 on a concrete 2-agent sequential run. -/
theorem seq_dataflow_witness :
    (((sequentialCollaboration envOk st0 (str "t") [agA, agB]).1).steps.get ⟨1, by decide⟩).input
      = (((sequentialCollaboration envOk st0 (str "t") [agA, agB]).1).steps.get ⟨0, by decide⟩).output :=
  seq_dataflow envOk st0 (str "t") [agA, agB] 0 (by decide)

/-- Folding the confidence sum over steps of constant confidence 0.8. -/
theorem foldl_conf_const :
    ∀ (l : List ReasoningStep) (a : ℚ), (∀ s ∈ l, s.confidence = 4/5) →
      l.foldl (fun sum step => sum + step.confidence) a = a + l.length * (4/5) := by
  intro l
  induction l with
  | nil => intro a _; simp
  | cons s rest ih =>
    intro a hconf
    have hs := hconf s (List.mem_cons_self s rest)
    rw [List.foldl_cons,
      ih (a + s.confidence) (fun x hx => hconf x (List.mem_cons_of_mem s hx)), hs]
    simp only [List.length_cons]
    push_cast
    ring

/-- Closed form of `calculateConfidence` when every step has confidence 0.8. -/
theorem calcConf_const (l : List ReasoningStep) (hne : l ≠ [])
    (hconf : ∀ s ∈ l, s.confidence = 4/5) :
    calculateConfidence l = min (4/5 + min ((l.length : ℚ) * (1/20)) (1/5)) 1 := by
  have hlen0 : l.length ≠ 0 := fun hh => hne (List.length_eq_zero.mp hh)
  have hlenQ : (l.length : ℚ) ≠ 0 := Nat.cast_ne_zero.mpr hlen0
  simp only [calculateConfidence, hlen0, if_false]
  rw [foldl_conf_const l 0 hconf, zero_add, mul_div_cancel_left₀ _ hlenQ]

/-- `calculateConfidence` on n parsed steps of confidence 0.8. -/
theorem calcConf_replicate (n : Nat) (hn : n ≠ 0) :
    calculateConfidence (List.replicate n cotStep08)
      = min (4/5 + min ((n : ℚ) * (1/20)) (1/5)) 1 := by
  have hrep : (List.replicate n cotStep08) ≠ [] := by
    intro hc
    exact hn (by simpa using congrArg List.length hc)
  have hrconf : ∀ s ∈ List.replicate n cotStep08, s.confidence = 4/5 := by
    intro s hs
    rw [List.eq_of_mem_replicate hs]
    rfl
  rw [calcConf_const _ hrep hrconf, List.length_replicate]

/-- C6: for the direct strategy with every parsed step at confidence 0.8, the
computed confidence is `min(0.8 + min(0.05 * steps, 0.2), 1)`; it is
monotonically non-decreasing in the step count, with 1 step giving 0.85 and
4 or 10 steps giving 1.0. -/
theorem direct_confidence (l : List ReasoningStep) (hne : l ≠ [])
    (hconf : ∀ s ∈ l, s.confidence = 4/5) :
    calculateConfidence l = min (4/5 + min ((l.length : ℚ) * (1/20)) (1/5)) 1
    ∧ (∀ m : Nat, l.length ≤ m →
        calculateConfidence l ≤ calculateConfidence (List.replicate m cotStep08))
    ∧ calculateConfidence (List.replicate 1 cotStep08) = 17/20
    ∧ calculateConfidence (List.replicate 4 cotStep08) = 1
    ∧ calculateConfidence (List.replicate 10 cotStep08) = 1 := by
  have hform := calcConf_const l hne hconf
  have hlen0 : l.length ≠ 0 := fun hh => hne (List.length_eq_zero.mp hh)
  refine ⟨hform, ?_, ?_, ?_, ?_⟩
  · intro m hm
    have hm0 : m ≠ 0 := by omega
    rw [hform, calcConf_replicate m hm0]
    refine min_le_min (add_le_add_left (min_le_min ?_ le_rfl) _) le_rfl
    exact mul_le_mul_of_nonneg_right (by exact_mod_cast hm) (by norm_num)
  · rw [calcConf_replicate 1 one_ne_zero]
    norm_num [min_def]
  · rw [calcConf_replicate 4 (by norm_num)]
    norm_num [min_def]
  · rw [calcConf_replicate 10 (by norm_num)]
    norm_num [min_def]

/-- Witness for C6 with two parsed steps of confidence 0.8. -/
theorem direct_confidence_witness :
    calculateConfidence (List.replicate 2 cotStep08)
      = min (4/5 + min (((List.replicate 2 cotStep08).length : ℚ) * (1/20)) (1/5)) 1
    ∧ (∀ m : Nat, (List.replicate 2 cotStep08).length ≤ m →
        calculateConfidence (List.replicate 2 cotStep08)
          ≤ calculateConfidence (List.replicate m cotStep08))
    ∧ calculateConfidence (List.replicate 1 cotStep08) = 17/20
    ∧ calculateConfidence (List.replicate 4 cotStep08) = 1
    ∧ calculateConfidence (List.replicate 10 cotStep08) = 1 :=
  direct_confidence (List.replicate 2 cotStep08) (by simp)
    (fun s hs => by rw [List.eq_of_mem_replicate hs]; rfl)

/-- Accumulated effect of `recordOutcome` on the success rate, generalized
over a start state whose counter and rate already reflect earlier samples. -/
theorem recordOutcome_foldl :
    ∀ (l : List StatsSample) (stats : OrchestratorStats) (n : Nat) (c : ℚ),
      stats.total_collaborations = n → 1 ≤ n → stats.success_rate = c / n →
      (l.foldl recordOutcome stats).total_collaborations = n + l.length
      ∧ (l.foldl recordOutcome stats).success_rate
          = (c + (l.countP (fun s => s.success) : ℚ)) / ((n : ℚ) + l.length) := by
  intro l
  induction l with
  | nil =>
    intro stats n c h1 _ h3
    refine ⟨by simpa using h1, ?_⟩
    simpa using h3
  | cons s rest ih =>
    intro stats n c h1 hn h3
    have hnQ : (n : ℚ) ≠ 0 := Nat.cast_ne_zero.mpr (by omega)
    have hrec : (recordOutcome stats s).total_collaborations = n + 1 := by
      simp [recordOutcome, updateStats, h1]
    have hrate : (recordOutcome stats s).success_rate
        = (c + (if s.success then (1 : ℚ) else 0)) / (((n : Nat) + 1 : Nat) : ℚ) := by
      simp only [recordOutcome, updateStats, h1, h3]
      push_cast
      field_simp
    obtain ⟨ht, hr⟩ := ih (recordOutcome stats s) (n + 1)
      (c + (if s.success then (1 : ℚ) else 0)) hrec (by omega) hrate
    rw [List.foldl_cons]
    refine ⟨by rw [ht, List.length_cons]; omega, ?_⟩
    rw [hr, List.countP_cons]
    have hcast : ((rest.countP (fun s => s.success)
          + if (fun s => s.success) s = true then 1 else 0 : Nat) : ℚ)
        = (rest.countP (fun s => s.success) : ℚ)
          + (if s.success then (1 : ℚ) else 0) := by
      rcases hs : s.success <;> push_cast <;> simp [hs]
    rw [hcast]
    simp only [List.length_cons]
    push_cast
    ring

/-- C3: starting from a zero sample counter, after n recorded outcomes the
success rate is exactly (number of successes)/n over ℚ, independent of the
initial rate field and of the recording order, and the first recorded sample
sets the running means directly to the observed values. -/
theorem stats_success_rate (init : OrchestratorStats)
    (h0 : init.total_collaborations = 0) :
    (∀ l : List StatsSample, l ≠ [] →
        (l.foldl recordOutcome init).success_rate
          = (l.countP (fun s => s.success) : ℚ) / (l.length : ℚ)
        ∧ ∀ l2 : List StatsSample, l.Perm l2 →
            (l2.foldl recordOutcome init).success_rate
              = (l.foldl recordOutcome init).success_rate)
    ∧ ∀ s : StatsSample,
        (recordOutcome init s).success_rate = (if s.success then (1 : ℚ) else 0)
        ∧ (recordOutcome init s).avg_execution_time = s.executionTime
        ∧ (recordOutcome init s).avg_agents_per_task = s.agentCount := by
  have hfirst : ∀ s : StatsSample,
      (recordOutcome init s).success_rate = (if s.success then (1 : ℚ) else 0)
      ∧ (recordOutcome init s).avg_execution_time = s.executionTime
      ∧ (recordOutcome init s).avg_agents_per_task = s.agentCount := by
    intro s
    refine ⟨?_, ?_, ?_⟩ <;> simp [recordOutcome, updateStats, h0]
  have hfold : ∀ l : List StatsSample, l ≠ [] →
      (l.foldl recordOutcome init).success_rate
        = (l.countP (fun s => s.success) : ℚ) / (l.length : ℚ) := by
    intro l hne
    match l with
    | s :: rest =>
      have h1 : (recordOutcome init s).total_collaborations = 1 := by
        simp [recordOutcome, updateStats, h0]
      have h3 : (recordOutcome init s).success_rate
          = (if s.success then (1 : ℚ) else 0) / ((1 : Nat) : ℚ) := by
        rw [(hfirst s).1]
        norm_num
      obtain ⟨_, hr⟩ := recordOutcome_foldl rest (recordOutcome init s) 1
        (if s.success then (1 : ℚ) else 0) h1 le_rfl h3
      rw [List.foldl_cons, hr, List.countP_cons]
      have hcast : ((rest.countP (fun s => s.success)
            + if (fun s => s.success) s = true then 1 else 0 : Nat) : ℚ)
          = (rest.countP (fun s => s.success) : ℚ)
            + (if s.success then (1 : ℚ) else 0) := by
        rcases hs : s.success <;> push_cast <;> simp [hs]
      rw [hcast]
      simp only [List.length_cons]
      push_cast
      ring
  refine ⟨fun l hne => ⟨hfold l hne, fun l2 hperm => ?_⟩, hfirst⟩
  have hne2 : l2 ≠ [] := by
    intro hc
    exact hne (List.Perm.eq_nil (hperm.trans (by rw [hc])))
  rw [hfold l hne, hfold l2 hne2, List.Perm.countP_eq _ hperm, hperm.length_eq]

/-- Witness for C3 with two concrete samples (one success, one failure). -/
theorem stats_success_rate_witness :
    (([⟨1, 2, true⟩, ⟨3, 1, false⟩] : List StatsSample).foldl recordOutcome initialStats).success_rate
      = ((([⟨1, 2, true⟩, ⟨3, 1, false⟩] : List StatsSample).countP (fun s => s.success) : ℚ))
        / ((([⟨1, 2, true⟩, ⟨3, 1, false⟩] : List StatsSample).length : ℚ))
    ∧ ((recordOutcome initialStats ⟨1, 2, true⟩).success_rate
        = (if (⟨1, 2, true⟩ : StatsSample).success then (1 : ℚ) else 0)
      ∧ (recordOutcome initialStats ⟨1, 2, true⟩).avg_execution_time
          = (⟨1, 2, true⟩ : StatsSample).executionTime
      ∧ (recordOutcome initialStats ⟨1, 2, true⟩).avg_agents_per_task
          = (⟨1, 2, true⟩ : StatsSample).agentCount) :=
  ⟨((stats_success_rate initialStats rfl).1 [⟨1, 2, true⟩, ⟨3, 1, false⟩]
      (by simp)).1,
    (stats_success_rate initialStats rfl).2 ⟨1, 2, true⟩⟩

/-- If any requested id is absent from the registry, agent resolution fails
with an unknown-agent error. -/
theorem resolveAgents_missing (registry : List Agent) :
    ∀ ids : List Str, (∃ id ∈ ids, registry.find? (fun a => a.id == id) = none) →
      ∃ id, resolveAgents registry ids = .error (str "Agent not found: " ++ id) := by
  intro ids
  induction ids with
  | nil =>
    rintro ⟨id, hmem, _⟩
    simp at hmem
  | cons id rest ih =>
    rintro ⟨id2, hmem, hnone⟩
    rcases hf : registry.find? (fun a => a.id == id) with _ | agent
    · exact ⟨id, by simp [resolveAgents, hf]⟩
    · rcases List.mem_cons.mp hmem with heq | hmem2
      · rw [heq] at hnone
        rw [hf] at hnone
        cases hnone
      · obtain ⟨id3, he⟩ := ih ⟨id2, hmem2, hnone⟩
        exact ⟨id3, by simp [resolveAgents, hf, he]⟩

/-- C9: for every collaboration request whose agent-id list is empty or
contains an id absent from the registry, `collaborate` returns an error (the
empty-agent-set or unknown-agent error respectively) and issues no generator
call: the call-tracking state is returned unchanged. -/
theorem collaborate_validation (env : GenEnv) (st : GenSt) (registry : List Agent)
    (stats : OrchestratorStats) (request : CollaborationRequest)
    (hbad : request.agents = []
      ∨ ∃ id ∈ request.agents, registry.find? (fun a => a.id == id) = none) :
    ∃ e, (collaborate env st registry stats request).1 = .error e
      ∧ (collaborate env st registry stats request).2.1 = st
      ∧ ((request.agents = [] ∧ e = str "No valid agents provided")
          ∨ ∃ id, e = str "Agent not found: " ++ id) := by
  rcases hbad with hempty | hmiss
  · refine ⟨str "No valid agents provided", ?_, ?_, Or.inl ⟨hempty, rfl⟩⟩ <;>
      simp [collaborate, validateAndGetAgents, resolveAgents, hempty]
  · obtain ⟨id, he⟩ := resolveAgents_missing registry request.agents hmiss
    refine ⟨str "Agent not found: " ++ id, ?_, ?_, Or.inr ⟨id, rfl⟩⟩ <;>
      simp [collaborate, validateAndGetAgents, he]

/-- Witness for C9: a request naming an unregistered agent id. -/
theorem collaborate_validation_witness :
    ∃ e, (collaborate envOk st0 [agA] initialStats
            ⟨str "t", [str "zzz"], str "parallel"⟩).1 = .error e
      ∧ (collaborate envOk st0 [agA] initialStats
            ⟨str "t", [str "zzz"], str "parallel"⟩).2.1 = st0
      ∧ (((⟨str "t", [str "zzz"], str "parallel"⟩ : CollaborationRequest).agents = []
            ∧ e = str "No valid agents provided")
          ∨ ∃ id, e = str "Agent not found: " ++ id) :=
  collaborate_validation envOk st0 [agA] initialStats
    ⟨str "t", [str "zzz"], str "parallel"⟩
    (Or.inr ⟨str "zzz", by decide, by decide⟩)

/-- The parallel fan-out records exactly one step per agent. -/
theorem parLoop_length (env : GenEnv) (task : Str) (total : Nat) :
    ∀ (agents : List Agent) (index : Nat) (st : GenSt),
      ((parLoop env task total agents index st).1).length = agents.length := by
  intro agents
  induction agents with
  | nil => intro index st; simp [parLoop]
  | cons agent rest ih =>
    intro index st
    rcases h : env.oracle st.k with e | r <;>
      simp [parLoop, executeAgentTask, issueCall, h, ih]

/-- The parallel fan-out advances the call counter once per agent. -/
theorem parLoop_k (env : GenEnv) (task : Str) (total : Nat) :
    ∀ (agents : List Agent) (index : Nat) (st : GenSt),
      ((parLoop env task total agents index st).2).k = st.k + agents.length := by
  intro agents
  induction agents with
  | nil => intro index st; simp [parLoop]
  | cons agent rest ih =>
    intro index st
    rcases h : env.oracle st.k with e | r <;>
      simp [parLoop, executeAgentTask, issueCall, h, ih, pushCall] <;> omega

/-- The parallel fan-out logs exactly one generator call per agent. -/
theorem parLoop_log_length (env : GenEnv) (task : Str) (total : Nat) :
    ∀ (agents : List Agent) (index : Nat) (st : GenSt),
      ((parLoop env task total agents index st).2).log.length
        = st.log.length + agents.length := by
  intro agents
  induction agents with
  | nil => intro index st; simp [parLoop]
  | cons agent rest ih =>
    intro index st
    rcases h : env.oracle st.k with e | r <;>
      simp [parLoop, executeAgentTask, issueCall, h, ih, pushCall] <;> omega

/-- Each recorded parallel step is determined by its branch index: the agent,
the dispatch-time step number, and the oracle outcome at that index. -/
theorem parLoop_getD (env : GenEnv) (task : Str) (total : Nat) :
    ∀ (agents : List Agent) (index : Nat) (st : GenSt) (i : Nat), i < agents.length →
      ((parLoop env task total agents index st).1).getD i dummyStep
        = parStepAt env task (agents.getD i dummyAgent) (index + i) (st.k + i) := by
  intro agents
  induction agents with
  | nil => intro index st i hi; simp at hi
  | cons agent rest ih =>
    intro index st i hi
    match i with
    | 0 =>
      rcases h : env.oracle st.k with e | r <;>
        simp [parLoop, executeAgentTask, issueCall, h, parStepAt]
    | j + 1 =>
      have hj : j < rest.length := by simpa using hi
      have harith1 : index + 1 + j = index + (j + 1) := by omega
      have harith2 : st.k + 1 + j = st.k + (j + 1) := by omega
      rcases h : env.oracle st.k with e | r <;>
        simpa [parLoop, executeAgentTask, issueCall, h, pushCall, harith1, harith2]
          using ih (index + 1) (pushCall st ⟨agent.system_prompt,
            buildAgentPrompt agent task index total (str "parallel")⟩) j hj

/-- A parallel step's success records whether its oracle call succeeded. -/
theorem parStepAt_success (env : GenEnv) (task : Str) (agent : Agent)
    (index callIdx : Nat) :
    (parStepAt env task agent index callIdx).success = genOk (env.oracle callIdx) := by
  rcases h : env.oracle callIdx with e | r <;> simp [parStepAt, genOk, h]

/-- A parallel step's number is its branch index plus one. -/
theorem parStepAt_number (env : GenEnv) (task : Str) (agent : Agent)
    (index callIdx : Nat) :
    (parStepAt env task agent index callIdx).step_number = index + 1 := by
  rcases h : env.oracle callIdx with e | r <;> simp [parStepAt, h]

/-- Case analysis of `parallelCollaboration`: with zero successful branches
the synthesis call is skipped and the fixed apology is returned; with at
least one success and a successful synthesis outcome, exactly one synthesis
call over the successful branches is appended. -/
theorem parallel_cases (env : GenEnv) (task : Str) (agents : List Agent) :
    ((((parLoop env task agents.length agents 0 st0).1).filter (fun s => s.success) = []) →
        parallelCollaboration env st0 task agents
          = (.ok { task := task, type := str "parallel", agents_used := agents,
                   steps := (parLoop env task agents.length agents 0 st0).1,
                   final_result := str "All parallel tasks failed. Unable to synthesize results.",
                   success := ((parLoop env task agents.length agents 0 st0).1).all
                     (fun s => s.success) },
             (parLoop env task agents.length agents 0 st0).2))
    ∧ (∀ z : Str,
        (((parLoop env task agents.length agents 0 st0).1).filter (fun s => s.success) ≠ []) →
        env.oracle ((parLoop env task agents.length agents 0 st0).2).k = .ok z →
        parallelCollaboration env st0 task agents
          = (.ok { task := task, type := str "parallel", agents_used := agents,
                   steps := (parLoop env task agents.length agents 0 st0).1,
                   final_result := if z = [] then str "Failed to synthesize results" else z,
                   success := ((parLoop env task agents.length agents 0 st0).1).all
                     (fun s => s.success) },
             pushCall (parLoop env task agents.length agents 0 st0).2
               ⟨parallelSynthSystem, synthesisUserPrompt task
                 (((parLoop env task agents.length agents 0 st0).1).filter
                   (fun s => s.success))⟩)) := by
  constructor
  · intro hfail
    simp [parallelCollaboration, synthesizeParallelResults, hfail]
  · intro z hsome hok
    have hlen : (((parLoop env task agents.length agents 0 st0).1).filter
        (fun s => s.success)).length ≠ 0 := by
      intro hc
      exact hsome (List.length_eq_zero.mp hc)
    simp [parallelCollaboration, synthesizeParallelResults, hlen, issueCall, hok]

/-- C2: for parallel collaboration over a non-empty agent list (with the
synthesis call succeeding whenever at least one branch succeeded), the
returned trace has exactly one step per requested agent regardless of branch
failures, step numbers follow the dispatch order (`steps[i].step_number =
i+1`), and the overall success flag is the conjunction of the per-step
success flags. -/
theorem par_trace_deterministic (env : GenEnv) (task : Str) (agents : List Agent)
    (z : Str) (hne : agents ≠ [])
    (hsynth : (∃ i, i < agents.length ∧ genOk (env.oracle i) = true) →
        env.oracle agents.length = .ok z) :
    ∃ r st1, parallelCollaboration env st0 task agents = (.ok r, st1)
      ∧ r.steps.length = agents.length
      ∧ (∀ i, i < r.steps.length → (r.steps.getD i dummyStep).step_number = i + 1)
      ∧ r.success = r.steps.all (fun s => s.success) := by
  have hlen := parLoop_length env task agents.length agents 0 st0
  have hnum : ∀ i, i < ((parLoop env task agents.length agents 0 st0).1).length →
      ((((parLoop env task agents.length agents 0 st0).1)).getD i dummyStep).step_number
        = i + 1 := by
    intro i hi
    rw [hlen] at hi
    rw [parLoop_getD env task agents.length agents 0 st0 i hi, parStepAt_number]
    omega
  by_cases hfail :
      ((parLoop env task agents.length agents 0 st0).1).filter (fun s => s.success) = []
  · exact ⟨_, _, (parallel_cases env task agents).1 hfail, hlen, hnum, rfl⟩
  · have hex : ∃ i, i < agents.length ∧ genOk (env.oracle i) = true := by
      obtain ⟨x, hx⟩ := List.exists_mem_of_ne_nil _ hfail
      have hx2 := List.mem_filter.mp hx
      obtain ⟨⟨j, hj⟩, hget⟩ := List.mem_iff_get.mp hx2.1
      have hjlen : j < agents.length := hlen ▸ hj
      have hgetD : ((parLoop env task agents.length agents 0 st0).1).getD j dummyStep = x := by
        rw [List.getD_eq_get _ _ hj, hget]
      have hx3 : x = parStepAt env task (agents.getD j dummyAgent) (0 + j) (st0.k + j) := by
        rw [← hgetD, parLoop_getD env task agents.length agents 0 st0 j hjlen]
      refine ⟨j, hjlen, ?_⟩
      have hsx := parStepAt_success env task (agents.getD j dummyAgent) (0 + j) (st0.k + j)
      rw [← hx3] at hsx
      simp only [st0, Nat.zero_add] at hsx
      rw [← hsx]
      exact hx2.2
    have hok : env.oracle ((parLoop env task agents.length agents 0 st0).2).k = .ok z := by
      rw [parLoop_k env task agents.length agents 0 st0]
      simpa [st0] using hsynth hex
    exact ⟨_, _, (parallel_cases env task agents).2 z hfail hok, hlen, hnum, rfl⟩

/-- Witness for C2: a 2-agent parallel run with an all-success oracle. -/
theorem par_trace_deterministic_witness :
    ∃ r st1, parallelCollaboration envOk st0 (str "t") [agA, agB] = (.ok r, st1)
      ∧ r.steps.length = 2
      ∧ (r.steps.getD 0 dummyStep).step_number = 1
      ∧ (r.steps.getD 1 dummyStep).step_number = 2
      ∧ r.success = r.steps.all (fun s => s.success) := by
  obtain ⟨r, st1, heq, h1, h2, h3⟩ :=
    par_trace_deterministic envOk (str "t") [agA, agB] (str "fine")
      (by simp) (fun _ => rfl)
  have hl2 : r.steps.length = 2 := by simpa using h1
  exact ⟨r, st1, heq, hl2, h2 0 (by omega), h2 1 (by omega), h3⟩

/-- C7: in parallel collaboration, when zero branches succeed no synthesis
call is issued and a normal result is returned whose final text is the fixed
apology and whose success flag is false; when at least one branch succeeds,
exactly one synthesis call is issued and its prompt is built from the
successful branches only. -/
theorem parallel_synthesis (env : GenEnv) (task : Str) (agents : List Agent)
    (z : Str) (hne : agents ≠ [])
    (hsynth : (∃ i, i < agents.length ∧ genOk (env.oracle i) = true) →
        env.oracle agents.length = .ok z) :
    ∃ r st1, parallelCollaboration env st0 task agents = (.ok r, st1)
      ∧ (r.steps.filter (fun s => s.success) = [] →
          st1.log.length = agents.length
          ∧ r.final_result = str "All parallel tasks failed. Unable to synthesize results."
          ∧ r.success = false)
      ∧ (r.steps.filter (fun s => s.success) ≠ [] →
          st1.log.length = agents.length + 1
          ∧ st1.log.getLast? = some ⟨parallelSynthSystem,
              synthesisUserPrompt task (r.steps.filter (fun s => s.success))⟩
          ∧ r.final_result = (if z = [] then str "Failed to synthesize results" else z)) := by
  have hlen := parLoop_length env task agents.length agents 0 st0
  have hlog := parLoop_log_length env task agents.length agents 0 st0
  by_cases hfail :
      ((parLoop env task agents.length agents 0 st0).1).filter (fun s => s.success) = []
  · refine ⟨_, _, (parallel_cases env task agents).1 hfail, fun _ => ⟨?_, rfl, ?_⟩,
      fun hcontra => absurd hfail hcontra⟩
    · simpa [st0] using hlog
    · have hne2 : (parLoop env task agents.length agents 0 st0).1 ≠ [] := by
        intro hc
        rw [hc] at hlen
        exact hne (List.length_eq_zero.mp hlen.symm)
      obtain ⟨x, hx⟩ := List.exists_mem_of_ne_nil _ hne2
      have hxf := List.filter_eq_nil.mp hfail x hx
      cases hall : ((parLoop env task agents.length agents 0 st0).1).all (fun s => s.success)
      · rfl
      · exact absurd (List.all_eq_true.mp hall x hx) hxf
  · have hex : ∃ i, i < agents.length ∧ genOk (env.oracle i) = true := by
      obtain ⟨x, hx⟩ := List.exists_mem_of_ne_nil _ hfail
      have hx2 := List.mem_filter.mp hx
      obtain ⟨⟨j, hj⟩, hget⟩ := List.mem_iff_get.mp hx2.1
      have hjlen : j < agents.length := hlen ▸ hj
      have hgetD : ((parLoop env task agents.length agents 0 st0).1).getD j dummyStep = x := by
        rw [List.getD_eq_get _ _ hj, hget]
      have hx3 : x = parStepAt env task (agents.getD j dummyAgent) (0 + j) (st0.k + j) := by
        rw [← hgetD, parLoop_getD env task agents.length agents 0 st0 j hjlen]
      refine ⟨j, hjlen, ?_⟩
      have hsx := parStepAt_success env task (agents.getD j dummyAgent) (0 + j) (st0.k + j)
      rw [← hx3] at hsx
      simp only [st0, Nat.zero_add] at hsx
      rw [← hsx]
      exact hx2.2
    have hok : env.oracle ((parLoop env task agents.length agents 0 st0).2).k = .ok z := by
      rw [parLoop_k env task agents.length agents 0 st0]
      simpa [st0] using hsynth hex
    refine ⟨_, _, (parallel_cases env task agents).2 z hfail hok,
      fun hcontra => absurd hcontra hfail, fun _ => ⟨?_, ?_, rfl⟩⟩
    · simp only [pushCall, List.length_append]
      simpa [st0] using hlog
    · simp only [pushCall]
      exact List.getLast?_concat _

/-- Witness for C7: one failing branch, one succeeding branch, synthesis
succeeds; the synthesis prompt covers only the surviving branch. -/
theorem parallel_synthesis_witness :
    ∃ r st1, parallelCollaboration envMixed st0 (str "t") [agA, agB] = (.ok r, st1)
      ∧ (r.steps.filter (fun s => s.success) = [] →
          st1.log.length = 2
          ∧ r.final_result = str "All parallel tasks failed. Unable to synthesize results."
          ∧ r.success = false)
      ∧ (r.steps.filter (fun s => s.success) ≠ [] →
          st1.log.length = 2 + 1
          ∧ st1.log.getLast? = some ⟨parallelSynthSystem,
              synthesisUserPrompt (str "t") (r.steps.filter (fun s => s.success))⟩
          ∧ r.final_result
              = (if str "merged" = ([] : Str) then str "Failed to synthesize results"
                 else str "merged")) := by
  obtain ⟨r, st1, heq, hA, hB⟩ :=
    parallel_synthesis envMixed (str "t") [agA, agB] (str "merged")
      (by simp) (fun _ => rfl)
  exact ⟨r, st1, heq, by simpa using hA, by simpa using hB⟩

/-- The hierarchical worker dispatch records one step per assigned pair. -/
theorem workerLoop_length (env : GenEnv) (task : Str) :
    ∀ (pairs : List (Str × Agent)) (index : Nat) (st : GenSt),
      ((workerLoop env task pairs index st).1).length = pairs.length := by
  intro pairs
  induction pairs with
  | nil => intro index st; simp [workerLoop]
  | cons pair rest ih =>
    intro index st
    rcases pair with ⟨subtask, worker⟩
    rcases h : env.oracle st.k with e | r <;>
      simp [workerLoop, executeAgentTask, issueCall, h, ih]

/-- The hierarchical worker dispatch advances the counter once per pair. -/
theorem workerLoop_k (env : GenEnv) (task : Str) :
    ∀ (pairs : List (Str × Agent)) (index : Nat) (st : GenSt),
      ((workerLoop env task pairs index st).2).k = st.k + pairs.length := by
  intro pairs
  induction pairs with
  | nil => intro index st; simp [workerLoop]
  | cons pair rest ih =>
    intro index st
    rcases pair with ⟨subtask, worker⟩
    rcases h : env.oracle st.k with e | r <;>
      simp [workerLoop, executeAgentTask, issueCall, h, ih, pushCall] <;> omega

/-- Each hierarchical worker step is determined by its dispatch index: the
assigned subtask as input, the assigned worker, and the dispatch-time step
number `index + 2`. -/
theorem workerLoop_getD (env : GenEnv) (task : Str) :
    ∀ (pairs : List (Str × Agent)) (index : Nat) (st : GenSt) (i : Nat), i < pairs.length →
      ((workerLoop env task pairs index st).1).getD i dummyStep
        = workerStepAt env (pairs.getD i ([], dummyAgent)) (index + i) (st.k + i) := by
  intro pairs
  induction pairs with
  | nil => intro index st i hi; simp at hi
  | cons pair rest ih =>
    intro index st i hi
    rcases pair with ⟨subtask, worker⟩
    match i with
    | 0 =>
      rcases h : env.oracle st.k with e | r <;>
        simp [workerLoop, executeAgentTask, issueCall, h, workerStepAt]
    | j + 1 =>
      have hj : j < rest.length := by simpa using hi
      have harith1 : index + 1 + j = index + (j + 1) := by omega
      have harith2 : st.k + 1 + j = st.k + (j + 1) := by omega
      rcases h : env.oracle st.k with e | r <;>
        simpa [workerLoop, executeAgentTask, issueCall, h, pushCall, harith1, harith2]
          using ih (index + 1) (pushCall st ⟨worker.system_prompt,
            buildWorkerPrompt worker subtask task⟩) j hj

/-- A worker step's assigned agent is the paired worker. -/
theorem workerStepAt_agent (env : GenEnv) (pair : Str × Agent) (index callIdx : Nat) :
    (workerStepAt env pair index callIdx).agent = pair.2 := by
  rcases h : env.oracle callIdx with e | r <;> simp [workerStepAt, h]

/-- A worker step's input is the paired subtask, whether or not the worker's
call succeeded. -/
theorem workerStepAt_input (env : GenEnv) (pair : Str × Agent) (index callIdx : Nat) :
    (workerStepAt env pair index callIdx).input = pair.1 := by
  rcases h : env.oracle callIdx with e | r <;> simp [workerStepAt, h]

/-- A worker step's number is its dispatch index plus two. -/
theorem workerStepAt_number (env : GenEnv) (pair : Str × Agent) (index callIdx : Nat) :
    (workerStepAt env pair index callIdx).step_number = index + 2 := by
  rcases h : env.oracle callIdx with e | r <;> simp [workerStepAt, h]

/-- When no line of the leader's breakdown carries a SUBTASK marker, subtask
parsing falls back to the paragraphs of trimmed length above 50, capped at 3. -/
theorem parseSubtasks_fallback (breakdown : Str)
    (hnl : ∀ line ∈ splitOnL (str "\n") breakdown,
        jsIncludesL (str "SUBTASK") (toUpperL line) = false) :
    parseSubtasks breakdown
      = ((splitOnL (str "\n\n") breakdown).filter
          (fun p => 50 < (trimL p).length)).take 3 := by
  have hempty : (splitOnL (str "\n") breakdown).filterMap (fun line =>
      if jsIncludesL (str "SUBTASK") (toUpperL line) then
        if line.contains ':' then
          some (trimL ((line.dropWhile (fun c => c ≠ ':')).drop 1))
        else none
      else none) = [] := by
    rw [List.filterMap_eq_nil]
    intro line hline
    rw [hnl line hline]
    simp
  simp only [parseSubtasks]
  rw [hempty]
  simp

/-- C4 (amended): in hierarchical collaboration with 1 leader and 2 workers,
when the leader's breakdown has no case-insensitive SUBTASK line but exactly
2 paragraphs of trimmed length strictly greater than 50, the fallback parse
yields those 2 paragraphs (capped at 3 in general) and they are dispatched in
order as the inputs of worker 1 and worker 2. -/
theorem hier_fallback_dispatch (env : GenEnv) (task breakdown p1 p2 z : Str)
    (leader w1 w2 : Agent)
    (h0 : env.oracle 0 = .ok breakdown)
    (hnl : ∀ line ∈ splitOnL (str "\n") breakdown,
        jsIncludesL (str "SUBTASK") (toUpperL line) = false)
    (hpar : (splitOnL (str "\n\n") breakdown).filter (fun p => 50 < (trimL p).length)
        = [p1, p2])
    (h3 : env.oracle 3 = .ok z) :
    ∃ r st1, hierarchicalCollaboration env st0 task [leader, w1, w2] = (.ok r, st1)
      ∧ parseSubtasks breakdown = [p1, p2]
      ∧ r.steps.length = 4
      ∧ (r.steps.getD 1 dummyStep).agent = w1
      ∧ (r.steps.getD 1 dummyStep).input = p1
      ∧ (r.steps.getD 1 dummyStep).step_number = 2
      ∧ (r.steps.getD 2 dummyStep).agent = w2
      ∧ (r.steps.getD 2 dummyStep).input = p2
      ∧ (r.steps.getD 2 dummyStep).step_number = 3 := by
  have hsub : parseSubtasks breakdown = [p1, p2] := by
    rw [parseSubtasks_fallback breakdown hnl, hpar]
    rfl
  rcases hW : workerLoop env task [(p1, w1), (p2, w2)] 0
      ⟨1, [⟨leader.system_prompt, buildLeaderPrompt task [w1, w2]⟩]⟩ with ⟨wsteps, wst⟩
  have hwlen : wsteps.length = 2 := by
    have h := workerLoop_length env task [(p1, w1), (p2, w2)] 0
      ⟨1, [⟨leader.system_prompt, buildLeaderPrompt task [w1, w2]⟩]⟩
    rw [hW] at h
    simpa using h
  have hw0 : wsteps.getD 0 dummyStep = workerStepAt env (p1, w1) 0 1 := by
    have h := workerLoop_getD env task [(p1, w1), (p2, w2)] 0
      ⟨1, [⟨leader.system_prompt, buildLeaderPrompt task [w1, w2]⟩]⟩ 0 (by norm_num)
    rw [hW] at h
    simpa using h
  have hw1 : wsteps.getD 1 dummyStep = workerStepAt env (p2, w2) 1 2 := by
    have h := workerLoop_getD env task [(p1, w1), (p2, w2)] 0
      ⟨1, [⟨leader.system_prompt, buildLeaderPrompt task [w1, w2]⟩]⟩ 1 (by norm_num)
    rw [hW] at h
    simpa using h
  have hk3 : env.oracle wst.k = .ok z := by
    have h := workerLoop_k env task [(p1, w1), (p2, w2)] 0
      ⟨1, [⟨leader.system_prompt, buildLeaderPrompt task [w1, w2]⟩]⟩
    rw [hW] at h
    have h2 : wst.k = 3 := by simpa using h
    rw [h2]
    exact h3
  refine ⟨{ task := task, type := str "hierarchical", agents_used := [leader, w1, w2],
            steps := ⟨1, leader, task, breakdown, true⟩ :: wsteps
              ++ [⟨(⟨1, leader, task, breakdown, true⟩ :: wsteps).length + 1, leader,
                   str "Synthesis of worker results",
                   if z = [] then str "Failed to synthesize final result" else z, true⟩],
            final_result := if z = [] then str "Failed to synthesize final result" else z,
            success := wsteps.all (fun r => r.success) },
          pushCall wst ⟨hierSynthSystem, hierSynthPrompt task breakdown wsteps⟩,
          ?_, hsub, ?_, ?_, ?_, ?_, ?_, ?_, ?_⟩
  · simp [hierarchicalCollaboration, executeAgentTask, issueCall, st0, h0, hsub,
      synthesizeHierarchicalResults, pushCall, hW, hk3]
  all_goals
    obtain ⟨sa, sb, rfl⟩ := List.length_eq_two.mp hwlen
  all_goals
    have hsa : sa = workerStepAt env (p1, w1) 0 1 := by simpa using hw0
    have hsb : sb = workerStepAt env (p2, w2) 1 2 := by simpa using hw1
    subst hsa
    subst hsb
  · rfl
  · exact workerStepAt_agent env (p1, w1) 0 1
  · exact workerStepAt_input env (p1, w1) 0 1
  · exact workerStepAt_number env (p1, w1) 0 1
  · exact workerStepAt_agent env (p2, w2) 1 2
  · exact workerStepAt_input env (p2, w2) 1 2
  · exact workerStepAt_number env (p2, w2) 1 2

/-- Witness for C4 on the concrete run whose breakdown holds two paragraphs
of 51 characters. -/
theorem hier_fallback_dispatch_witness :
    ∃ r st1, hierarchicalCollaboration envHierWit st0 (str "task") [agA, agB, agC]
        = (.ok r, st1)
      ∧ parseSubtasks witBreakdown = [witPara1, witPara2]
      ∧ r.steps.length = 4
      ∧ (r.steps.getD 1 dummyStep).agent = agB
      ∧ (r.steps.getD 1 dummyStep).input = witPara1
      ∧ (r.steps.getD 1 dummyStep).step_number = 2
      ∧ (r.steps.getD 2 dummyStep).agent = agC
      ∧ (r.steps.getD 2 dummyStep).input = witPara2
      ∧ (r.steps.getD 2 dummyStep).step_number = 3 :=
  hier_fallback_dispatch envHierWit (str "task") witBreakdown witPara1 witPara2
    (str "synth") agA agB agC rfl (by decide) (by decide) rfl

/-- C4 counterexample: a breakdown with no SUBTASK line and exactly two
paragraphs of exactly 50 characters (so "at least 50" holds) parses to no
subtasks at all, and the hierarchical run dispatches no worker step: the
trace holds only the leader and synthesis steps. -/
theorem hier_fallback_cex :
    (∀ line ∈ splitOnL (str "\n") cexBreakdown,
        jsIncludesL (str "SUBTASK") (toUpperL line) = false)
    ∧ splitOnL (str "\n\n") cexBreakdown = [cexPara1, cexPara2]
    ∧ (trimL cexPara1).length = 50
    ∧ (trimL cexPara2).length = 50
    ∧ parseSubtasks cexBreakdown = []
    ∧ ((hierarchicalCollaboration envHierCex st0 (str "task") [agA, agB, agC]).1).toOption.map
        (fun r => r.steps.length) = some 2 := by
  decide

/-- The call counter advances by one per issued call. -/
theorem pushCall_k (st : GenSt) (c : GenCall) : (pushCall st c).k = st.k + 1 := rfl

/-- The simulated action executor never returns an empty observation. -/
theorem executeAction_ne_nil (action input : Str) : executeAction action input ≠ [] := by
  unfold executeAction
  repeat' split
  all_goals decide

/-- Invariant of the ReAct loop under an all-successful oracle: it returns
normally, appends at most `fuel` steps and at least one when fuel remains,
no step before the last contains "ANSWER" in its action, stopping before the
fuel bound happens only with "ANSWER" in the last action, and every step's
observation is the simulated execution of its action. -/
theorem reactLoop_spec (env : GenEnv) (g : Nat → Str)
    (hg : ∀ k, env.oracle k = .ok (g k)) :
    ∀ (fuel iteration : Nat) (input : Str) (acc : List ReasoningStep) (st : GenSt),
      ∃ steps1 st1, reactLoop env fuel iteration input acc st = (.ok (acc ++ steps1), st1)
        ∧ steps1.length ≤ fuel
        ∧ (fuel ≠ 0 → steps1 ≠ [])
        ∧ (∀ i, i + 1 < steps1.length →
            stepHasAnswer (steps1.getD i dummyReasonStep) = false)
        ∧ (steps1.length < fuel →
            stepHasAnswer (steps1.getD (steps1.length - 1) dummyReasonStep) = true)
        ∧ (∀ s ∈ steps1, ∃ a inp, s.action = some a
            ∧ s.observation = some (executeAction a inp)) := by
  intro fuel
  induction fuel with
  | zero =>
    intro iteration input acc st
    refine ⟨[], st, by simp [reactLoop], by simp, fun h => absurd rfl h, ?_, ?_, ?_⟩
    · intro i hi
      simp at hi
    · intro h
      omega
    · intro s hs
      simp at hs
  | succ fuel ih =>
    intro iteration input acc st
    cases hans : jsIncludesL (str "ANSWER") (toUpperL (g (st.k + 1))) with
    | true =>
      refine ⟨[{ step_number := iteration + 1, type := str "react", thought := g st.k,
                 action := some (g (st.k + 1)),
                 observation := some (executeAction (g (st.k + 1)) input),
                 confidence := 4/5 }],
              pushCall (pushCall st ⟨reactThoughtSystem, buildReactThoughtPrompt input acc⟩)
                ⟨reactActionSystem, buildReactActionPrompt (g st.k) input⟩,
              ?_, by simp, fun _ => by simp, ?_, ?_, ?_⟩
      · simp [reactLoop, issueCall, pushCall_k, hg, hans]
      · intro i hi
        simp at hi
      · intro _
        simpa [stepHasAnswer] using hans
      · intro s hs
        simp at hs
        exact ⟨g (st.k + 1), input, by rw [hs], by rw [hs]⟩
    | false =>
      obtain ⟨rest1, st1, heq, hlen, hnn, hc, hd, he⟩ :=
        ih (iteration + 1)
          (input ++ str "\n\nPrevious reasoning: " ++ g st.k ++ str "\nAction taken: "
            ++ g (st.k + 1) ++ str "\nResult: " ++ executeAction (g (st.k + 1)) input)
          (acc ++ [{ step_number := iteration + 1, type := str "react", thought := g st.k,
                     action := some (g (st.k + 1)),
                     observation := some (executeAction (g (st.k + 1)) input),
                     confidence := 4/5 }])
          (pushCall (pushCall st ⟨reactThoughtSystem, buildReactThoughtPrompt input acc⟩)
            ⟨reactActionSystem, buildReactActionPrompt (g st.k) input⟩)
      refine ⟨{ step_number := iteration + 1, type := str "react", thought := g st.k,
                action := some (g (st.k + 1)),
                observation := some (executeAction (g (st.k + 1)) input),
                confidence := 4/5 } :: rest1, st1, ?_, ?_, fun _ => by simp, ?_, ?_, ?_⟩
      · rw [show reactLoop env (fuel + 1) iteration input acc st
            = reactLoop env fuel (iteration + 1)
                (input ++ str "\n\nPrevious reasoning: " ++ g st.k ++ str "\nAction taken: "
                  ++ g (st.k + 1) ++ str "\nResult: " ++ executeAction (g (st.k + 1)) input)
                (acc ++ [{ step_number := iteration + 1, type := str "react",
                           thought := g st.k, action := some (g (st.k + 1)),
                           observation := some (executeAction (g (st.k + 1)) input),
                           confidence := 4/5 }])
                (pushCall (pushCall st ⟨reactThoughtSystem, buildReactThoughtPrompt input acc⟩)
                  ⟨reactActionSystem, buildReactActionPrompt (g st.k) input⟩)
            from by simp [reactLoop, issueCall, pushCall_k, hg, hans], heq]
        simp
      · simp only [List.length_cons]
        omega
      · intro i hi
        match i with
        | 0 =>
          simpa [stepHasAnswer] using hans
        | j + 1 =>
          rw [List.getD_cons_succ]
          exact hc j (by simpa using hi)
      · intro hlt
        have hfz : fuel ≠ 0 := by
          simp only [List.length_cons] at hlt
          omega
        have hr1 : rest1 ≠ [] := hnn hfz
        have hr1len : 1 ≤ rest1.length := List.length_pos.mpr hr1
        have hidx : ∀ a : ReasoningStep, (a :: rest1).length - 1 = (rest1.length - 1) + 1 := by
          intro a
          simp only [List.length_cons]
          omega
        rw [hidx, List.getD_cons_succ]
        exact hd (by simp only [List.length_cons] at hlt; omega)
      · intro s hs
        rcases List.mem_cons.mp hs with hh | ht
        · exact ⟨g (st.k + 1), input, by rw [hh], by rw [hh]⟩
        · exact he s ht

/-- C8: under an all-successful oracle the ReAct strategy executes at most 5
iterations, terminates early exactly when an action text contains "ANSWER"
(case-insensitive) — no earlier step's action contains it, and a run shorter
than 5 steps ends with such an action — and the returned response equals the
observation of the last completed step. -/
theorem react_loop_contract (env : GenEnv) (input : Str) (g : Nat → Str)
    (hg : ∀ k, env.oracle k = .ok (g k)) :
    ∃ r st1, reactMethodology env st0 input = (.ok r, st1)
      ∧ 1 ≤ r.reasoning.length
      ∧ r.reasoning.length ≤ 5
      ∧ (∀ i, i + 1 < r.reasoning.length →
          stepHasAnswer (r.reasoning.getD i dummyReasonStep) = false)
      ∧ (r.reasoning.length < 5 →
          stepHasAnswer (r.reasoning.getD (r.reasoning.length - 1) dummyReasonStep) = true)
      ∧ (r.reasoning.getLast?).bind (fun s => s.observation) = some r.response := by
  obtain ⟨steps1, st1, heq, hlen, hnn, hc, hd, he⟩ := reactLoop_spec env g hg 5 0 input [] st0
  have hne : steps1 ≠ [] := hnn (by omega)
  have hlast : steps1.getLast? = some (steps1.getLast hne) := List.getLast?_eq_getLast _ hne
  obtain ⟨a, inp, ha, hobs⟩ := he (steps1.getLast hne) (List.getLast_mem hne)
  have hobs_ne : executeAction a inp ≠ [] := executeAction_ne_nil a inp
  have hbind : (steps1.getLast?).bind (fun s => s.observation)
      = some (executeAction a inp) := by
    rw [hlast]
    simpa using hobs
  refine ⟨{ response := jsOrStr ((steps1.getLast?).bind (fun s => s.observation))
              (str "Could not determine answer"),
            reasoning := steps1,
            confidence := calculateConfidence steps1 }, st1, ?_, ?_, hlen, hc, hd, ?_⟩
  · simp only [reactMethodology, heq, List.nil_append]
  · exact List.length_pos.mpr hne
  · rw [hbind]
    simp [jsOrStr, hobs_ne]

/-- Witness for C8: an oracle that always answers "ANSWER" stops the loop
after the first iteration. -/
theorem react_loop_contract_witness :
    ∃ r st1, reactMethodology envAnswer st0 (str "q") = (.ok r, st1)
      ∧ 1 ≤ r.reasoning.length
      ∧ r.reasoning.length ≤ 5
      ∧ (∀ i, i + 1 < r.reasoning.length →
          stepHasAnswer (r.reasoning.getD i dummyReasonStep) = false)
      ∧ (r.reasoning.length < 5 →
          stepHasAnswer (r.reasoning.getD (r.reasoning.length - 1) dummyReasonStep) = true)
      ∧ (r.reasoning.getLast?).bind (fun s => s.observation) = some r.response :=
  react_loop_contract envAnswer (str "q") (fun _ => str "ANSWER") (fun _ => rfl)

end AgenticEngine



